import Mathlib

/-!
Verification of the account ledger and transaction-validation core of
`simple_bank.py` (voaneves/simple-bank, v2.1).

Money amounts (Python floats) are embedded as rationals `ℚ`; timestamps
(`datetime`) are embedded as a `date` component (a calendar-day index)
plus a time-of-day component, since the code only ever compares the
`.date()` components.  Python exceptions are embedded by returning
`Option ErroBancario × State`: the returned state is the object's state
at the moment the exception escapes (Python mutates in place, so a raise
after a partial mutation would leave the mutation visible — the embedding
mirrors the source's control flow exactly, raising before any mutation
only where the source does).
-/

namespace SimpleBank

/-- Embedding of `datetime`: a calendar date index (`.date()`) and a
time-of-day.  `ContaCorrente.sacar` compares only `date` components. -/
structure DateTime where
  date : ℕ
  time : ℕ
deriving DecidableEq, Repr

/-- The custom exception hierarchy (`ErroBancario` subclasses).
Payload fields mirror the attributes stored by each exception class. -/
inductive ErroBancario where
  | saldoInsuficiente (saldo valor : ℚ)
  | limiteSaque (limite : ℚ)
  | limiteQtdSaques
  | valorInvalido
deriving DecidableEq, Repr

/-- The two `Transacao` subclasses (`Saque`, `Deposito`), each carrying
its immutable `_valor`. -/
inductive Transacao where
  | saque (valor : ℚ)
  | deposito (valor : ℚ)
deriving DecidableEq, Repr

/-- The `valor` property of a `Transacao`. -/
def Transacao.valor : Transacao → ℚ
  | .saque v => v
  | .deposito v => v

/-- `isinstance(t, Saque)`. -/
def Transacao.isSaque : Transacao → Bool
  | .saque _ => true
  | .deposito _ => false

/-- One entry of `Historico._transacoes`: a `(datetime, Transacao)` pair. -/
abbrev HistEntry : Type := DateTime × Transacao

/-- `Conta`: balance, number, branch code and the transaction history
(the `Historico` wrapper holds only this list). -/
structure Conta where
  saldo : ℚ
  numero : ℕ
  agencia : String
  historico : List HistEntry
deriving DecidableEq, Repr

/-- `Conta.__init__` / `Conta.nova_conta`: zero balance, branch "0001",
empty history. -/
def Conta.nova_conta (numero : ℕ) : Conta :=
  { saldo := 0, numero := numero, agencia := "0001", historico := [] }

/-- `Conta.sacar(valor)`: raise `ValorInvalidoError` if `valor <= 0`,
raise `SaldoInsuficienteError(saldo, valor)` if `saldo < valor`, else
`saldo -= valor`. -/
def Conta.sacar (c : Conta) (valor : ℚ) : Option ErroBancario × Conta :=
  if valor ≤ 0 then (some .valorInvalido, c)
  else if c.saldo < valor then (some (.saldoInsuficiente c.saldo valor), c)
  else (none, { c with saldo := c.saldo - valor })

/-- `Conta.depositar(valor)`: raise `ValorInvalidoError` if `valor <= 0`,
else `saldo += valor`. -/
def Conta.depositar (c : Conta) (valor : ℚ) : Option ErroBancario × Conta :=
  if valor ≤ 0 then (some .valorInvalido, c)
  else (none, { c with saldo := c.saldo + valor })

/-- `Historico.adicionar_transacao(transacao)`: append
`(datetime.now(), transacao)` to the log. -/
def Conta.adicionar_transacao (c : Conta) (now : DateTime) (t : Transacao) : Conta :=
  { c with historico := c.historico ++ [(now, t)] }

/-- `ContaCorrente`: a `Conta` plus `_limite` (default 500.0) and
`_limite_saques` (default 3). -/
structure ContaCorrente where
  toConta : Conta
  limite : ℚ
  limite_saques : ℕ
deriving DecidableEq, Repr

/-- `ContaCorrente.__init__` with the default keyword arguments
`limite=500.0, limite_saques=3`. -/
def ContaCorrente.nova (numero : ℕ) : ContaCorrente :=
  { toConta := Conta.nova_conta numero, limite := 500, limite_saques := 3 }

/-- The number of `Saque` entries of a history dated `now.date`. -/
def saquesHojeHist (l : List HistEntry) (now : DateTime) : ℕ :=
  (l.filter (fun e => e.2.isSaque && e.1.date == now.date)).length

/-- The `saques_hoje` computation in `ContaCorrente.sacar`: the number of
history entries whose transaction is a `Saque` and whose timestamp's
`.date()` equals today's date. -/
def ContaCorrente.saques_hoje (cc : ContaCorrente) (now : DateTime) : ℕ :=
  saquesHojeHist cc.toConta.historico now

/-- `ContaCorrente.sacar(valor)`: compute `saques_hoje`; raise
`LimiteSaqueError(limite)` if `valor > limite`; raise
`LimiteQtdSaquesError` if `saques_hoje >= limite_saques`; else delegate
to `Conta.sacar`. -/
def ContaCorrente.sacar (cc : ContaCorrente) (valor : ℚ) (now : DateTime) :
    Option ErroBancario × ContaCorrente :=
  if cc.limite < valor then (some (.limiteSaque cc.limite), cc)
  else if cc.limite_saques ≤ cc.saques_hoje now then (some .limiteQtdSaques, cc)
  else
    ((cc.toConta.sacar valor).1, { cc with toConta := (cc.toConta.sacar valor).2 })

/-- `ContaCorrente.depositar`: `ContaCorrente` does not override
`depositar`, so Python method resolution runs `Conta.depositar` on the
same object; this definition is that inherited behaviour. -/
def ContaCorrente.depositar (cc : ContaCorrente) (valor : ℚ) :
    Option ErroBancario × ContaCorrente :=
  ((cc.toConta.depositar valor).1, { cc with toConta := (cc.toConta.depositar valor).2 })

/-- A runtime account object: either a plain `Conta` or a
`ContaCorrente`; dynamic dispatch of `sacar`/`depositar` selects the
override. -/
inductive Account where
  | plain (c : Conta)
  | corrente (cc : ContaCorrente)
deriving DecidableEq, Repr

/-- The underlying `Conta` state of an account object. -/
def Account.conta : Account → Conta
  | .plain c => c
  | .corrente cc => cc.toConta

/-- `conta.sacar(valor)` under dynamic dispatch. -/
def Account.sacar (a : Account) (valor : ℚ) (now : DateTime) :
    Option ErroBancario × Account :=
  match a with
  | .plain c => ((c.sacar valor).1, .plain (c.sacar valor).2)
  | .corrente cc => ((cc.sacar valor now).1, .corrente (cc.sacar valor now).2)

/-- `conta.depositar(valor)` under dynamic dispatch (`ContaCorrente`
inherits `Conta.depositar`). -/
def Account.depositar (a : Account) (valor : ℚ) :
    Option ErroBancario × Account :=
  match a with
  | .plain c => ((c.depositar valor).1, .plain (c.depositar valor).2)
  | .corrente cc => ((cc.depositar valor).1, .corrente (cc.depositar valor).2)

/-- `conta.historico.adicionar_transacao(self)` on an account object. -/
def Account.adicionar_transacao (a : Account) (now : DateTime) (t : Transacao) : Account :=
  match a with
  | .plain c => .plain (c.adicionar_transacao now t)
  | .corrente cc => .corrente { cc with toConta := cc.toConta.adicionar_transacao now t }

/-- `Saque.registrar` / `Deposito.registrar`: perform the account
mutation; if it raises, the exception propagates and the history append
never runs; on success append `(now, self)` to the history. -/
def Transacao.registrar (t : Transacao) (a : Account) (now : DateTime) :
    Option ErroBancario × Account :=
  match t with
  | .saque v =>
    match (a.sacar v now).1 with
    | some e => (some e, (a.sacar v now).2)
    | none => (none, ((a.sacar v now).2).adicionar_transacao now (.saque v))
  | .deposito v =>
    match (a.depositar v).1 with
    | some e => (some e, (a.depositar v).2)
    | none => (none, ((a.depositar v).2).adicionar_transacao now (.deposito v))

/-- `Cliente`: name, tax id. -/
structure Cliente where
  nome : String
  cpf : String
deriving DecidableEq, Repr

/-- `Cliente.realizar_transacao(conta, transacao)`: forwards to
`transacao.registrar(conta)`. -/
def Cliente.realizar_transacao (_cliente : Cliente) (a : Account)
    (t : Transacao) (now : DateTime) : Option ErroBancario × Account :=
  t.registrar a now

/-- The sum of all `Deposito` amounts in a history. -/
def sumDepositos : List HistEntry → ℚ
  | [] => 0
  | (_, .deposito v) :: rest => v + sumDepositos rest
  | (_, .saque _) :: rest => sumDepositos rest

/-- The sum of all `Saque` amounts in a history. -/
def sumSaques : List HistEntry → ℚ
  | [] => 0
  | (_, .saque v) :: rest => v + sumSaques rest
  | (_, .deposito _) :: rest => sumSaques rest

/-- A session: each `(transacao, now)` attempt is applied via
`registrar`; a raised exception is caught by the controller
(`executar_saque` / `executar_deposito`), which keeps the account object
as the exception left it. -/
def applyAll (a : Account) : List (Transacao × DateTime) → Account
  | [] => a
  | (t, now) :: rest => applyAll (t.registrar a now).2 rest

/-- `True` iff every attempt in the list raises (each step's `registrar`
returns an exception). -/
def allFail (a : Account) : List (Transacao × DateTime) → Bool
  | [] => true
  | (t, now) :: rest =>
    (t.registrar a now).1.isSome && allFail (t.registrar a now).2 rest

/-- A heap of Python list objects, to reason about object identity and
aliasing for `Historico.transacoes`: each reference below `next` holds a
list of history entries. -/
structure ListHeap where
  store : ℕ → List HistEntry
  next : ℕ

/-- `Historico.transacoes` (the property): `return self._transacoes[:]` —
allocate a fresh list object whose contents are a copy of the internal
log at `histRef`, and return the fresh reference. -/
def ListHeap.transacoes (h : ListHeap) (histRef : ℕ) : ℕ × ListHeap :=
  (h.next,
   { store := Function.update h.store h.next (h.store histRef),
     next := h.next + 1 })

/-- An arbitrary in-place mutation of the list object at reference `r`
(e.g. `lst.append`, `lst.clear`, item assignment): the object's contents
are replaced by `l`; no other object changes. -/
def ListHeap.mutate (h : ListHeap) (r : ℕ) (l : List HistEntry) : ListHeap :=
  { h with store := Function.update h.store r l }

/-- The account mutation performed by `registrar` before the history
append: `conta.sacar(valor)` for `Saque`, `conta.depositar(valor)` for
`Deposito`. -/
def Transacao.mutacao (t : Transacao) (a : Account) (now : DateTime) :
    Option ErroBancario × Account :=
  match t with
  | .saque v => a.sacar v now
  | .deposito v => a.depositar v

/-- A checking account with default limits whose history already holds
three same-day withdrawals (used as a concrete test input). -/
def ccDemo : ContaCorrente :=
  { toConta :=
      { saldo := 800, numero := 1, agencia := "0001",
        historico :=
          [(⟨0, 1⟩, .saque 400), (⟨0, 2⟩, .saque 400), (⟨0, 3⟩, .saque 400)] },
    limite := 500, limite_saques := 3 }

/-- A clock instant on the same calendar date as `ccDemo`'s entries. -/
def nowDemo : DateTime := ⟨0, 4⟩

/-- A plain account with a 10-unit balance (concrete test input). -/
def cDemo : Conta := { saldo := 10, numero := 2, agencia := "0001", historico := [] }

/-- A one-cell heap holding an empty history at reference 0
(concrete test input for the snapshot claims). -/
def heapDemo : ListHeap := { store := fun _ => [], next := 1 }

/-- The base deposit rule in the spec's words (for the refinement claim
about inherited deposits): fail with `InvalidAmount` when the amount is
non-positive, otherwise increase the balance by exactly the amount. -/
def depositRuleSpec (saldo valor : ℚ) : Option ErroBancario × ℚ :=
  if valor ≤ 0 then (some .valorInvalido, saldo) else (none, saldo + valor)

/-- A small session: one deposit then one withdrawal (concrete test input). -/
def opsDemo : List (Transacao × DateTime) :=
  [(.deposito 100, ⟨0, 0⟩), (.saque 30, ⟨0, 1⟩)]

/-- A session of three attempts that all fail on `ccDemo`: an over-limit
withdrawal, a withdrawal beyond the exhausted daily quota, and a
non-positive deposit (concrete test input). -/
def opsFailDemo : List (Transacao × DateTime) :=
  [(.saque 600, ⟨0, 5⟩), (.saque 100, ⟨0, 6⟩), (.deposito (-5), ⟨0, 7⟩)]

/-- A history entry used to mutate a snapshot in the defensive-copy test. -/
def entryDemo : HistEntry := (⟨1, 1⟩, .saque 5)

/-! ### Helper lemmas about the operations -/

theorem Conta.sacar_fail_unchanged (c : Conta) (v : ℚ)
    (h : ((c.sacar v).1).isSome) : (c.sacar v).2 = c := by
  unfold Conta.sacar at h ⊢
  split_ifs at h ⊢ <;> simp_all

theorem Conta.sacar_ok (c : Conta) (v : ℚ) (h : (c.sacar v).1 = none) :
    0 < v ∧ v ≤ c.saldo ∧ (c.sacar v).2 = { c with saldo := c.saldo - v } := by
  unfold Conta.sacar at h ⊢
  split_ifs at h ⊢ with h1 h2
  exact ⟨not_le.mp h1, not_lt.mp h2, rfl⟩

theorem Conta.depositar_fail_unchanged (c : Conta) (v : ℚ)
    (h : ((c.depositar v).1).isSome) : (c.depositar v).2 = c := by
  unfold Conta.depositar at h ⊢
  split_ifs at h ⊢ <;> simp_all

theorem Conta.depositar_ok (c : Conta) (v : ℚ) (h : (c.depositar v).1 = none) :
    0 < v ∧ (c.depositar v).2 = { c with saldo := c.saldo + v } := by
  unfold Conta.depositar at h ⊢
  split_ifs at h ⊢ with h1
  exact ⟨not_le.mp h1, rfl⟩

theorem ContaCorrente.sacar_fail_keeps (cc : ContaCorrente) (v : ℚ) (now : DateTime)
    (h : ((cc.sacar v now).1).isSome) : (cc.sacar v now).2 = cc := by
  unfold ContaCorrente.sacar at h ⊢
  split_ifs at h ⊢
  · rfl
  · rfl
  · have h2 := Conta.sacar_fail_unchanged cc.toConta v h
    show ContaCorrente.mk (cc.toConta.sacar v).2 cc.limite cc.limite_saques = cc
    rw [h2]

theorem ContaCorrente.sacar_ok_fields (cc : ContaCorrente) (v : ℚ) (now : DateTime)
    (h : (cc.sacar v now).1 = none) :
    0 < v ∧ v ≤ cc.toConta.saldo ∧
      (cc.sacar v now).2.toConta.saldo = cc.toConta.saldo - v ∧
      (cc.sacar v now).2.toConta.historico = cc.toConta.historico := by
  unfold ContaCorrente.sacar at h ⊢
  split_ifs at h ⊢
  obtain ⟨h1, h2, h3⟩ := Conta.sacar_ok cc.toConta v h
  exact ⟨h1, h2, by simp [h3], by simp [h3]⟩

theorem Account.sacar_fail_fixed (a : Account) (v : ℚ) (now : DateTime)
    (h : ((a.sacar v now).1).isSome) : (a.sacar v now).2 = a := by
  cases a with
  | plain c =>
    have h2 := Conta.sacar_fail_unchanged c v h
    show Account.plain (c.sacar v).2 = Account.plain c
    rw [h2]
  | corrente cc =>
    have h2 := ContaCorrente.sacar_fail_keeps cc v now h
    show Account.corrente (cc.sacar v now).2 = Account.corrente cc
    rw [h2]

theorem Account.sacar_ok_conta (a : Account) (v : ℚ) (now : DateTime)
    (h : (a.sacar v now).1 = none) :
    0 < v ∧ v ≤ a.conta.saldo ∧
      (a.sacar v now).2.conta.saldo = a.conta.saldo - v ∧
      (a.sacar v now).2.conta.historico = a.conta.historico := by
  cases a with
  | plain c =>
    obtain ⟨h1, h2, h3⟩ := Conta.sacar_ok c v h
    refine ⟨h1, h2, ?_, ?_⟩
    · show (c.sacar v).2.saldo = c.saldo - v
      rw [h3]
    · show (c.sacar v).2.historico = c.historico
      rw [h3]
  | corrente cc =>
    obtain ⟨h1, h2, h3, h4⟩ := ContaCorrente.sacar_ok_fields cc v now h
    exact ⟨h1, h2, h3, h4⟩

theorem Account.depositar_fail_fixed (a : Account) (v : ℚ)
    (h : ((a.depositar v).1).isSome) : (a.depositar v).2 = a := by
  cases a with
  | plain c =>
    have h2 := Conta.depositar_fail_unchanged c v h
    show Account.plain (c.depositar v).2 = Account.plain c
    rw [h2]
  | corrente cc =>
    have h2 := Conta.depositar_fail_unchanged cc.toConta v h
    show Account.corrente
        (ContaCorrente.mk (cc.toConta.depositar v).2 cc.limite cc.limite_saques) =
      Account.corrente cc
    rw [h2]

theorem Account.depositar_ok_conta (a : Account) (v : ℚ) (h : (a.depositar v).1 = none) :
    0 < v ∧ (a.depositar v).2.conta.saldo = a.conta.saldo + v ∧
      (a.depositar v).2.conta.historico = a.conta.historico := by
  cases a with
  | plain c =>
    obtain ⟨h1, h2⟩ := Conta.depositar_ok c v h
    refine ⟨h1, ?_, ?_⟩
    · show (c.depositar v).2.saldo = c.saldo + v
      rw [h2]
    · show (c.depositar v).2.historico = c.historico
      rw [h2]
  | corrente cc =>
    obtain ⟨h1, h2⟩ := Conta.depositar_ok cc.toConta v h
    refine ⟨h1, ?_, ?_⟩
    · show (cc.toConta.depositar v).2.saldo = cc.toConta.saldo + v
      rw [h2]
    · show (cc.toConta.depositar v).2.historico = cc.toConta.historico
      rw [h2]

theorem Account.adicionar_conta (a : Account) (now : DateTime) (t : Transacao) :
    (a.adicionar_transacao now t).conta = a.conta.adicionar_transacao now t := by
  cases a <;> rfl

theorem Transacao.registrar_fst (t : Transacao) (a : Account) (now : DateTime) :
    (t.registrar a now).1 = (t.mutacao a now).1 := by
  cases t with
  | saque v =>
    unfold Transacao.registrar Transacao.mutacao
    cases h : (a.sacar v now).1 <;> simp [h]
  | deposito v =>
    unfold Transacao.registrar Transacao.mutacao
    cases h : (a.depositar v).1 <;> simp [h]

theorem Transacao.registrar_isSome_snd (t : Transacao) (a : Account) (now : DateTime)
    (h : ((t.registrar a now).1).isSome) : (t.registrar a now).2 = a := by
  cases t with
  | saque v =>
    unfold Transacao.registrar at h ⊢
    cases hs : (a.sacar v now).1 with
    | none => simp only [hs] at h; simp at h
    | some e =>
      simp only [hs]
      exact Account.sacar_fail_fixed a v now (by rw [hs]; rfl)
  | deposito v =>
    unfold Transacao.registrar at h ⊢
    cases hs : (a.depositar v).1 with
    | none => simp only [hs] at h; simp at h
    | some e =>
      simp only [hs]
      exact Account.depositar_fail_fixed a v (by rw [hs]; rfl)

theorem Transacao.registrar_none_snd (t : Transacao) (a : Account) (now : DateTime)
    (h : (t.registrar a now).1 = none) :
    (t.registrar a now).2 = ((t.mutacao a now).2).adicionar_transacao now t := by
  cases t with
  | saque v =>
    unfold Transacao.registrar at h ⊢
    unfold Transacao.mutacao
    cases hs : (a.sacar v now).1 with
    | some e => simp only [hs] at h; simp at h
    | none => simp only [hs]
  | deposito v =>
    unfold Transacao.registrar at h ⊢
    unfold Transacao.mutacao
    cases hs : (a.depositar v).1 with
    | some e => simp only [hs] at h; simp at h
    | none => simp only [hs]

/-! ### Sums over a history -/

theorem sumDepositos_append_saque (l : List HistEntry) (d : DateTime) (v : ℚ) :
    sumDepositos (l ++ [(d, .saque v)]) = sumDepositos l := by
  induction l with
  | nil => rfl
  | cons x rest ih =>
    obtain ⟨d', t'⟩ := x
    cases t' <;> simp [sumDepositos, ih]

theorem sumDepositos_append_deposito (l : List HistEntry) (d : DateTime) (v : ℚ) :
    sumDepositos (l ++ [(d, .deposito v)]) = sumDepositos l + v := by
  induction l with
  | nil => simp [sumDepositos]
  | cons x rest ih =>
    obtain ⟨d', t'⟩ := x
    cases t' <;> simp [sumDepositos, ih] <;> ring

theorem sumSaques_append_saque (l : List HistEntry) (d : DateTime) (v : ℚ) :
    sumSaques (l ++ [(d, .saque v)]) = sumSaques l + v := by
  induction l with
  | nil => simp [sumSaques]
  | cons x rest ih =>
    obtain ⟨d', t'⟩ := x
    cases t' <;> simp [sumSaques, ih] <;> ring

theorem sumSaques_append_deposito (l : List HistEntry) (d : DateTime) (v : ℚ) :
    sumSaques (l ++ [(d, .deposito v)]) = sumSaques l := by
  induction l with
  | nil => rfl
  | cons x rest ih =>
    obtain ⟨d', t'⟩ := x
    cases t' <;> simp [sumSaques, ih]

/-! ### Invariant preservation and session lemmas -/

theorem registrar_step_inv (t : Transacao) (a : Account) (now : DateTime)
    (h : a.conta.saldo =
        sumDepositos a.conta.historico - sumSaques a.conta.historico ∧
      0 ≤ a.conta.saldo) :
    (t.registrar a now).2.conta.saldo =
        sumDepositos (t.registrar a now).2.conta.historico -
          sumSaques (t.registrar a now).2.conta.historico ∧
      0 ≤ (t.registrar a now).2.conta.saldo := by
  cases hr : (t.registrar a now).1 with
  | some e =>
    rw [Transacao.registrar_isSome_snd t a now (by rw [hr]; rfl)]
    exact h
  | none =>
    rw [Transacao.registrar_none_snd t a now hr, Account.adicionar_conta]
    have hfst := Transacao.registrar_fst t a now
    rw [hr] at hfst
    cases t with
    | saque v =>
      obtain ⟨h1, h2, h3, h4⟩ := Account.sacar_ok_conta a v now hfst.symm
      unfold Conta.adicionar_transacao
      simp only [Transacao.mutacao, h3, h4, sumDepositos_append_saque,
        sumSaques_append_saque]
      constructor
      · rw [h.1]; ring
      · linarith [h.2]
    | deposito v =>
      obtain ⟨h1, h2, h3⟩ := Account.depositar_ok_conta a v hfst.symm
      unfold Conta.adicionar_transacao
      simp only [Transacao.mutacao, h2, h3, sumDepositos_append_deposito,
        sumSaques_append_deposito]
      constructor
      · rw [h.1]; ring
      · linarith [h.2]

theorem applyAll_inv (ops : List (Transacao × DateTime)) (a : Account)
    (h : a.conta.saldo =
        sumDepositos a.conta.historico - sumSaques a.conta.historico ∧
      0 ≤ a.conta.saldo) :
    (applyAll a ops).conta.saldo =
        sumDepositos (applyAll a ops).conta.historico -
          sumSaques (applyAll a ops).conta.historico ∧
      0 ≤ (applyAll a ops).conta.saldo := by
  induction ops generalizing a with
  | nil => exact h
  | cons p rest ih =>
    obtain ⟨t, now⟩ := p
    exact ih _ (registrar_step_inv t a now h)

theorem allFail_applyAll (ops : List (Transacao × DateTime)) (a : Account)
    (h : allFail a ops = true) : applyAll a ops = a := by
  induction ops generalizing a with
  | nil => rfl
  | cons p rest ih =>
    obtain ⟨t, now⟩ := p
    unfold allFail at h
    rw [Bool.and_eq_true] at h
    have hsnd := Transacao.registrar_isSome_snd t a now h.1
    unfold applyAll
    rw [hsnd]
    rw [hsnd] at h
    exact ih a h.2

/-! ### The claims -/

/-- C1: for every account — plain or checking — starting fresh (zero
balance, empty history), after any session of deposit/withdrawal attempts
applied via `Transacao.registrar` (rejected attempts are caught by the
controller and leave the object as the exception left it), the balance
equals the sum of all `Deposito` amounts minus the sum of all `Saque`
amounts recorded in the history, and the balance is never negative. -/
theorem C1_balance_invariant (a : Account) (ops : List (Transacao × DateTime))
    (h0 : a.conta.saldo = 0) (h1 : a.conta.historico = []) :
    (applyAll a ops).conta.saldo =
        sumDepositos (applyAll a ops).conta.historico -
          sumSaques (applyAll a ops).conta.historico ∧
      0 ≤ (applyAll a ops).conta.saldo := by
  apply applyAll_inv
  rw [h0, h1]
  exact ⟨by simp [sumDepositos, sumSaques], le_refl 0⟩

/-- C1 at a concrete input: a fresh plain account, one deposit of 100 and
one withdrawal of 30. -/
theorem C1_balance_invariant_witness :
    (Account.plain (Conta.nova_conta 1)).conta.saldo = 0 ∧
      (Account.plain (Conta.nova_conta 1)).conta.historico = [] ∧
      ((applyAll (.plain (Conta.nova_conta 1)) opsDemo).conta.saldo =
          sumDepositos (applyAll (.plain (Conta.nova_conta 1)) opsDemo).conta.historico -
            sumSaques (applyAll (.plain (Conta.nova_conta 1)) opsDemo).conta.historico ∧
        0 ≤ (applyAll (.plain (Conta.nova_conta 1)) opsDemo).conta.saldo) :=
  ⟨rfl, rfl, C1_balance_invariant _ opsDemo rfl rfl⟩

/-- C2: `ContaCorrente.sacar` evaluates its checks in this exact order:
first the per-operation limit (`LimiteSaqueError` fires whenever
`valor > limite`, regardless of the daily count, the balance, or the sign
of the amount), then the daily count (`LimiteQtdSaquesError`), and only
then delegates to the base `Conta.sacar` rule (where `ValorInvalidoError`
or `SaldoInsuficienteError` may still fire). -/
theorem C2_contacorrente_sacar_order (cc : ContaCorrente) (valor : ℚ)
    (now : DateTime) :
    (cc.limite < valor →
      cc.sacar valor now = (some (.limiteSaque cc.limite), cc)) ∧
    (valor ≤ cc.limite → cc.limite_saques ≤ cc.saques_hoje now →
      cc.sacar valor now = (some .limiteQtdSaques, cc)) ∧
    (valor ≤ cc.limite → cc.saques_hoje now < cc.limite_saques →
      cc.sacar valor now =
        ((cc.toConta.sacar valor).1,
          { cc with toConta := (cc.toConta.sacar valor).2 })) := by
  refine ⟨fun h1 => ?_, fun h1 h2 => ?_, fun h1 h2 => ?_⟩ <;>
    unfold ContaCorrente.sacar
  · rw [if_pos h1]
  · rw [if_neg (not_lt.mpr h1), if_pos h2]
  · rw [if_neg (not_lt.mpr h1), if_neg (not_le.mpr h2)]

/-- C2 at a concrete input: on `ccDemo` (limit 500, daily quota already
exhausted, balance 800) a withdrawal of 600 hits the per-operation check
first. -/
theorem C2_contacorrente_sacar_order_witness :
    ccDemo.limite < 600 ∧
      ccDemo.sacar 600 nowDemo = (some (.limiteSaque ccDemo.limite), ccDemo) :=
  ⟨by norm_num [ccDemo],
   (C2_contacorrente_sacar_order ccDemo 600 nowDemo).1 (by norm_num [ccDemo])⟩

/-- C3 as stated is false: a checking account whose daily quota is already
exhausted rejects the non-positive withdrawal of -1 with
`LimiteQtdSaquesError`, not with `ValorInvalidoError`. -/
theorem C3_counterexample :
    (-1 : ℚ) ≤ 0 ∧
      ccDemo.sacar (-1) nowDemo = (some .limiteQtdSaques, ccDemo) ∧
      some ErroBancario.limiteQtdSaques ≠ some ErroBancario.valorInvalido := by
  refine ⟨by norm_num, ?_, by simp⟩
  unfold ContaCorrente.sacar
  norm_num [ccDemo, nowDemo, ContaCorrente.saques_hoje, saquesHojeHist,
    Transacao.isSaque]

/-- C3 (amended): withdrawing a non-positive amount never succeeds and
leaves the account unchanged; a plain account always fails with
`ValorInvalidoError`; a checking account fails with `ValorInvalidoError`
provided the amount is within the per-operation limit and the daily quota
is not yet exhausted — otherwise the corresponding limit error fires
first, still leaving the account unchanged. -/
theorem C3_sacar_nonpositive (valor : ℚ) (hv : valor ≤ 0) :
    (∀ c : Conta, c.sacar valor = (some .valorInvalido, c)) ∧
    (∀ (cc : ContaCorrente) (now : DateTime), valor ≤ cc.limite →
      cc.saques_hoje now < cc.limite_saques →
      cc.sacar valor now = (some .valorInvalido, cc)) ∧
    (∀ (cc : ContaCorrente) (now : DateTime), ∃ e,
      cc.sacar valor now = (some e, cc)) := by
  refine ⟨fun c => ?_, fun cc now h1 h2 => ?_, fun cc now => ?_⟩
  · unfold Conta.sacar
    rw [if_pos hv]
  · unfold ContaCorrente.sacar Conta.sacar
    rw [if_neg (not_lt.mpr h1), if_neg (not_le.mpr h2), if_pos hv]
  · by_cases h1 : cc.limite < valor
    · exact ⟨.limiteSaque cc.limite, by unfold ContaCorrente.sacar; rw [if_pos h1]⟩
    · by_cases h2 : cc.limite_saques ≤ cc.saques_hoje now
      · exact ⟨.limiteQtdSaques,
          by unfold ContaCorrente.sacar; rw [if_neg h1, if_pos h2]⟩
      · refine ⟨.valorInvalido, ?_⟩
        unfold ContaCorrente.sacar Conta.sacar
        rw [if_neg h1, if_neg h2, if_pos hv]

/-- C3 (amended) at a concrete input: a plain account rejects -1 with
`ValorInvalidoError` unchanged. -/
theorem C3_sacar_nonpositive_witness :
    (-1 : ℚ) ≤ 0 ∧ cDemo.sacar (-1) = (some .valorInvalido, cDemo) :=
  ⟨by norm_num, (C3_sacar_nonpositive (-1) (by norm_num)).1 cDemo⟩

/-- C4: when the history already records at least `limite_saques`
same-day withdrawals, any further withdrawal whose amount is within the
per-operation limit fails with `LimiteQtdSaquesError`, regardless of the
amount's validity or the available balance. -/
theorem C4_daily_limit_blocks (cc : ContaCorrente) (valor : ℚ) (now : DateTime)
    (hcount : cc.limite_saques ≤ cc.saques_hoje now)
    (hval : valor ≤ cc.limite) :
    cc.sacar valor now = (some .limiteQtdSaques, cc) := by
  unfold ContaCorrente.sacar
  rw [if_neg (not_lt.mpr hval), if_pos hcount]

/-- C4 at a concrete input: `ccDemo` holds three same-day withdrawals
(default daily limit 3), so a fourth withdrawal of 1 on the same date is
rejected. -/
theorem C4_daily_limit_blocks_witness :
    ccDemo.limite_saques ≤ ccDemo.saques_hoje nowDemo ∧ (1 : ℚ) ≤ ccDemo.limite ∧
      ccDemo.sacar 1 nowDemo = (some .limiteQtdSaques, ccDemo) :=
  ⟨by decide, by norm_num [ccDemo],
   C4_daily_limit_blocks ccDemo 1 nowDemo (by decide) (by norm_num [ccDemo])⟩

/-- C5: for a plain account, `sacar(valor)` fails with `ValorInvalidoError`
when `valor ≤ 0`; fails with `SaldoInsuficienteError` carrying the current
balance and the requested amount when `valor > saldo`; otherwise decreases
the balance by exactly `valor` and succeeds. -/
theorem C5_conta_sacar_rule (c : Conta) (valor : ℚ) :
    (valor ≤ 0 → c.sacar valor = (some .valorInvalido, c)) ∧
    (0 < valor → c.saldo < valor →
      c.sacar valor = (some (.saldoInsuficiente c.saldo valor), c)) ∧
    (0 < valor → valor ≤ c.saldo →
      c.sacar valor = (none, { c with saldo := c.saldo - valor })) := by
  refine ⟨fun h => ?_, fun h1 h2 => ?_, fun h1 h2 => ?_⟩ <;> unfold Conta.sacar
  · rw [if_pos h]
  · rw [if_neg (not_le.mpr h1), if_pos h2]
  · rw [if_neg (not_le.mpr h1), if_neg (not_lt.mpr h2)]

/-- C5 at a concrete input: withdrawing 12 from a balance of 10 raises
`SaldoInsuficienteError(10, 12)`. -/
theorem C5_conta_sacar_rule_witness :
    (0 : ℚ) < 12 ∧ cDemo.saldo < 12 ∧
      cDemo.sacar 12 = (some (.saldoInsuficiente cDemo.saldo 12), cDemo) :=
  ⟨by norm_num, by norm_num [cDemo],
   (C5_conta_sacar_rule cDemo 12).2.1 (by norm_num) (by norm_num [cDemo])⟩

/-- C6: for every account (plain or checking), `depositar(valor)` fails
with `ValorInvalidoError` and leaves the account entirely unchanged when
`valor ≤ 0`; otherwise it succeeds, increases the balance by exactly
`valor`, and leaves the history untouched. -/
theorem C6_depositar_rule (a : Account) (valor : ℚ) :
    (valor ≤ 0 → a.depositar valor = (some .valorInvalido, a)) ∧
    (0 < valor → (a.depositar valor).1 = none ∧
      (a.depositar valor).2.conta.saldo = a.conta.saldo + valor ∧
      (a.depositar valor).2.conta.historico = a.conta.historico) := by
  constructor
  · intro h
    cases a with
    | plain c =>
      show ((c.depositar valor).1, Account.plain (c.depositar valor).2) = _
      unfold Conta.depositar
      rw [if_pos h]
    | corrente cc =>
      show ((cc.toConta.depositar valor).1,
          Account.corrente
            (ContaCorrente.mk (cc.toConta.depositar valor).2 cc.limite
              cc.limite_saques)) = _
      unfold Conta.depositar
      rw [if_pos h]
  · intro h
    have hnone : (a.depositar valor).1 = none := by
      cases a with
      | plain c =>
        show (c.depositar valor).1 = none
        unfold Conta.depositar
        rw [if_neg (not_le.mpr h)]
      | corrente cc =>
        show (cc.toConta.depositar valor).1 = none
        unfold Conta.depositar
        rw [if_neg (not_le.mpr h)]
    obtain ⟨_, h2, h3⟩ := Account.depositar_ok_conta a valor hnone
    exact ⟨hnone, h2, h3⟩

/-- C6 at a concrete input: depositing 250 into the checking account
`ccDemo` succeeds and adds exactly 250. -/
theorem C6_depositar_rule_witness :
    (0 : ℚ) < 250 ∧
      (((Account.corrente ccDemo).depositar 250).1 = none ∧
        ((Account.corrente ccDemo).depositar 250).2.conta.saldo =
          (Account.corrente ccDemo).conta.saldo + 250 ∧
        ((Account.corrente ccDemo).depositar 250).2.conta.historico =
          (Account.corrente ccDemo).conta.historico) :=
  ⟨by norm_num, (C6_depositar_rule (.corrente ccDemo) 250).2 (by norm_num)⟩

/-- C7: `registrar` is atomic: the account mutation's outcome propagates
unchanged to the caller; on any failure the account — balance and history
— is exactly as before; on success exactly the one entry `(now, t)` is
appended to the history. -/
theorem C7_registrar_atomic (t : Transacao) (a : Account) (now : DateTime) :
    (t.registrar a now).1 = (t.mutacao a now).1 ∧
    (∀ e, (t.registrar a now).1 = some e → (t.registrar a now).2 = a) ∧
    ((t.registrar a now).1 = none →
      (t.registrar a now).2.conta.historico = a.conta.historico ++ [(now, t)]) := by
  refine ⟨Transacao.registrar_fst t a now, fun e he => ?_, fun hn => ?_⟩
  · exact Transacao.registrar_isSome_snd t a now (by rw [he]; rfl)
  · rw [Transacao.registrar_none_snd t a now hn, Account.adicionar_conta]
    cases t with
    | saque v =>
      obtain ⟨_, _, _, h4⟩ := Account.sacar_ok_conta a v now
        ((Transacao.registrar_fst (.saque v) a now).symm.trans hn)
      unfold Conta.adicionar_transacao
      simp only [Transacao.mutacao, h4]
    | deposito v =>
      obtain ⟨_, _, h3⟩ := Account.depositar_ok_conta a v
        ((Transacao.registrar_fst (.deposito v) a now).symm.trans hn)
      unfold Conta.adicionar_transacao
      simp only [Transacao.mutacao, h3]

/-- C7 at a concrete input: an over-limit `Saque(600)` on `ccDemo`
propagates `LimiteSaqueError(500)` and leaves the account object
unchanged. -/
theorem C7_registrar_atomic_witness :
    ((Transacao.saque 600).registrar (.corrente ccDemo) nowDemo).1 =
        some (.limiteSaque 500) ∧
      ((Transacao.saque 600).registrar (.corrente ccDemo) nowDemo).2 =
        .corrente ccDemo := by
  constructor
  · norm_num [Transacao.registrar, Account.sacar, ContaCorrente.sacar, ccDemo]
  · exact (C7_registrar_atomic (.saque 600) (.corrente ccDemo) nowDemo).2.1
      (.limiteSaque 500)
      (by norm_num [Transacao.registrar, Account.sacar, ContaCorrente.sacar, ccDemo])

/-- C9: `ContaCorrente` does not override `depositar`: a checking-account
deposit is exactly the inherited base rule applied to the underlying
state — it matches `depositRuleSpec` and can never raise a checking-only
limit error, whatever the limits or the day's withdrawal count. -/
theorem C9_deposito_unconstrained (cc : ContaCorrente) (valor : ℚ) :
    cc.depositar valor =
      ((cc.toConta.depositar valor).1,
        { cc with toConta := (cc.toConta.depositar valor).2 }) ∧
    (cc.depositar valor).1 = (depositRuleSpec cc.toConta.saldo valor).1 ∧
    (cc.depositar valor).2.toConta.saldo =
      (depositRuleSpec cc.toConta.saldo valor).2 ∧
    (∀ l, (cc.depositar valor).1 ≠ some (.limiteSaque l)) ∧
    (cc.depositar valor).1 ≠ some .limiteQtdSaques := by
  refine ⟨rfl, ?_, ?_, fun l => ?_, ?_⟩
  · unfold ContaCorrente.depositar Conta.depositar depositRuleSpec
    split_ifs <;> simp
  · unfold ContaCorrente.depositar Conta.depositar depositRuleSpec
    split_ifs <;> simp
  · unfold ContaCorrente.depositar Conta.depositar
    split_ifs <;> simp
  · unfold ContaCorrente.depositar Conta.depositar
    split_ifs <;> simp

/-- C9 at a concrete input: a deposit into `ccDemo` never reports the
per-operation withdrawal limit. -/
theorem C9_deposito_unconstrained_witness :
    (ccDemo.depositar 250).1 ≠ some (.limiteSaque 500) :=
  (C9_deposito_unconstrained ccDemo 250).2.2.2.1 500

/-- C10: rejected attempts never consume the daily withdrawal quota: if
every attempt of a session on a checking account fails, the account object
is exactly as before, and in particular the same-day withdrawal count
(`saques_hoje`) for any date is unchanged. -/
theorem C10_failed_attempts_preserve_quota (cc : ContaCorrente)
    (ops : List (Transacao × DateTime))
    (h : allFail (.corrente cc) ops = true) :
    applyAll (.corrente cc) ops = .corrente cc ∧
    ∀ now, saquesHojeHist (applyAll (.corrente cc) ops).conta.historico now =
      saquesHojeHist cc.toConta.historico now := by
  have he := allFail_applyAll ops (.corrente cc) h
  exact ⟨he, fun now =>
    congrArg (fun x => saquesHojeHist x.conta.historico now) he⟩

/-- C10 at a concrete input: three failing attempts on `ccDemo` (over the
per-operation limit, over the exhausted daily quota, and a non-positive
deposit) leave the account exactly as it was. -/
theorem C10_failed_attempts_preserve_quota_witness :
    allFail (.corrente ccDemo) opsFailDemo = true ∧
      applyAll (.corrente ccDemo) opsFailDemo = .corrente ccDemo :=
  ⟨by decide,
   (C10_failed_attempts_preserve_quota ccDemo opsFailDemo (by decide)).1⟩

/-- C8: the `transacoes` snapshot allocates a fresh list object whose
contents equal the internal log at that moment; mutating the returned
object never changes the account's internal log, and a subsequent snapshot
still returns the original contents. -/
theorem C8_snapshot_defensive (h : ListHeap) (histRef : ℕ)
    (href : histRef < h.next) :
    ((h.transacoes histRef).2).store (h.transacoes histRef).1 =
        h.store histRef ∧
    (∀ l, (((h.transacoes histRef).2).mutate (h.transacoes histRef).1 l).store
        histRef = h.store histRef) ∧
    (∀ l,
      (((((h.transacoes histRef).2).mutate (h.transacoes histRef).1
            l).transacoes histRef).2).store
          ((((h.transacoes histRef).2).mutate (h.transacoes histRef).1
            l).transacoes histRef).1 =
        h.store histRef) := by
  have hne : histRef ≠ h.next := Nat.ne_of_lt href
  unfold ListHeap.transacoes ListHeap.mutate
  refine ⟨?_, fun l => ?_, fun l => ?_⟩ <;>
    simp [Function.update_same, Function.update_noteq hne]

/-- C8 at a concrete input: after snapshotting the log at reference 0 of
`heapDemo` and mutating the returned copy, the internal log is unchanged. -/
theorem C8_snapshot_defensive_witness :
    0 < heapDemo.next ∧
      (((heapDemo.transacoes 0).2).mutate (heapDemo.transacoes 0).1
          [entryDemo]).store 0 = heapDemo.store 0 :=
  ⟨by decide, (C8_snapshot_defensive heapDemo 0 (by decide)).2.1 [entryDemo]⟩

end SimpleBank
